import Mathlib

/-!
Shallow embedding of the loan-data scrubbing and preprocessing pipeline
(Regression-Models, "Data Scrubbing and Preprocessing" notebook).

Numeric columns are modelled as rationals; a pandas NaN entry is modelled
as `none` in an `Option ℚ` field.  Dates are (year, month, day) triples
ordered lexicographically, exactly as Python's `datetime.date`.  Reference
series (`Rates`, `HPI`) are association lists keyed by date (and, for HPI,
region).  A pandas `.ix` scalar lookup on a date absent from a
`DatetimeIndex` raises `KeyError`, and Python's `min` of an empty sequence
raises `ValueError`; both are modelled by `Except.error`, and the eager
Python-2 `map` over the loan table, which such an exception aborts, is
modelled by an error-propagating traversal (`populateWindow`).
-/

namespace Scrub

/-- Calendar dates as in Python `datetime.date`: year, month, day. -/
structure Date where
  year : ℕ
  month : ℕ
  day : ℕ
deriving DecidableEq

/-- Python date ordering: lexicographic on (year, month, day). -/
def Date.le (a b : Date) : Prop :=
  a.year < b.year ∨
    (a.year = b.year ∧ (a.month < b.month ∨ (a.month = b.month ∧ a.day ≤ b.day)))

instance (a b : Date) : Decidable (Date.le a b) := by
  unfold Date.le
  infer_instance

/-- Gregorian leap-year test. -/
def isLeap (y : ℕ) : Bool := (y % 4 == 0 && y % 100 != 0) || (y % 400 == 0)

/-- Number of days of month `m` in year `y`. -/
def daysInMonth (y m : ℕ) : ℕ :=
  if m = 2 then (if isLeap y then 29 else 28)
  else if m = 4 ∨ m = 6 ∨ m = 9 ∨ m = 11 then 30
  else 31

/-- The calendar day after `d` (for a valid date `d`). -/
def nextDay (d : Date) : Date :=
  if d.day < daysInMonth d.year d.month then ⟨d.year, d.month, d.day + 1⟩
  else if d.month < 12 then ⟨d.year, d.month + 1, 1⟩
  else ⟨d.year + 1, 1, 1⟩

/-- The source's year-offset convention: `dt.date(d.year + k, d.month, d.day)`. -/
def addYears (k : ℕ) (d : Date) : Date := ⟨d.year + k, d.month, d.day⟩

/-- A row of the origination table `Log_Orig`.  The fields that the source
checks for nulls (`ORIG_RT`, `OCLTV`, `DTI`, `CSCORE_B`) are `Option ℚ`. -/
structure Record where
  loanId : ℕ
  origAmt : ℚ
  origRt : Option ℚ
  origDte : Date
  ocltv : Option ℚ
  dti : Option ℚ
  cscore : Option ℚ
  state : String
deriving DecidableEq

/-- pandas `Series.mean()`: the mean of the non-null entries, NaN (`none`)
when every entry is null. -/
def optMean (l : List (Option ℚ)) : Option ℚ :=
  let vs := l.filterMap id
  if vs = [] then none else some (vs.sum / vs.length)

/-- Python 2's builtin `round(q, 0)`, as an integer: round to the nearest
integer, ties away from zero (the notebook runs under Python 2, whose
`round` differs from Python 3's round-half-to-even at half-integral
inputs). -/
def roundHalfAway (q : ℚ) : ℤ :=
  if q - ⌊q⌋ < 1/2 then ⌊q⌋
  else if 1/2 < q - ⌊q⌋ then ⌊q⌋ + 1
  else if q < 0 then ⌊q⌋ else ⌊q⌋ + 1

/-- The source's coarsening `round(q / g, 0) * g`. -/
def roundTo (g q : ℚ) : ℚ := (roundHalfAway (q / g) : ℚ) * g

/-- The three imputed fields, in the source's fill order. -/
inductive FillVar
  | CSCORE
  | DTI
  | OCLTV
deriving DecidableEq

/-- A bucket key.  The source renders keys as format strings
("OCLTV-{}/Rate-{}" or "FICO-{}/Rate-{}"); a NaN component renders as the
text "nan", so two NaN components compare equal, which is why the
components are `Option ℚ` compared structurally. -/
inductive BKey where
  | ocltvRate (ocltv : Option ℚ) (rate : Option ℚ)
  | ficoRate (fico : Option ℚ) (rate : Option ℚ)
deriving DecidableEq

/-- The source's `Buckets(table, x, fillVar)`; the row `table.loc[x]` is
passed as `r`.  For a missing `CSCORE` the key is OCLTV rounded to the
nearest 20 and `ORIG_RT` rounded to the nearest 1; for a missing `DTI` or
`OCLTV` it is `CSCORE_B` rounded to the nearest 50 and `ORIG_RT` rounded to
the nearest 1.  Only the first component is mean-substituted when missing
(`if np.isnan(OCLTV): ...` / `if np.isnan(FICO): ...`); a NaN rate flows
into the key unchanged. -/
def Buckets (table : List Record) (r : Record) (fillVar : FillVar) : BKey :=
  match fillVar with
  | .CSCORE =>
    let Rate := r.origRt.map (fun v => roundTo 1 v)
    let OCLTV :=
      match r.ocltv with
      | some v => some (roundTo 20 v)
      | none => (optMean (table.map (fun t => t.ocltv))).map (fun m => roundTo 20 m)
    .ocltvRate OCLTV Rate
  | _ =>
    let Rate := r.origRt.map (fun v => roundTo 1 v)
    let FICO :=
      match r.cscore with
      | some v => some (roundTo 50 v)
      | none => (optMean (table.map (fun t => t.cscore))).map (fun m => roundTo 50 m)
    .ficoRate FICO Rate

/-- Read the target field of a row. -/
def getField (r : Record) : FillVar → Option ℚ
  | .CSCORE => r.cscore
  | .DTI => r.dti
  | .OCLTV => r.ocltv

/-- Overwrite the target field of a row. -/
def setField (r : Record) : FillVar → ℚ → Record
  | .CSCORE, v => { r with cscore := some v }
  | .DTI, v => { r with dti := some v }
  | .OCLTV, v => { r with ocltv := some v }

/-- The mean of the target field over the rows sharing bucket key `k`
(pandas `x.mean()` inside a group: nulls skipped, NaN when all null). -/
def bucketMean (table : List Record) (k : BKey) (fv : FillVar) : Option ℚ :=
  optMean ((table.filter (fun r => decide (Buckets table r fv = k))).map
    (fun r => getField r fv))

/-- One `groupby(lambda x: Buckets(...)).apply(fill_mean)` pass: a null
target field becomes the bucket mean when that mean is defined, and is
left null otherwise (`fillna` of NaN); bucket keys and means are computed
over the table as it stands at the start of the pass. -/
def fillPass (table : List Record) (fv : FillVar) : List Record :=
  table.map (fun r =>
    if (getField r fv).isSome then r
    else
      match bucketMean table (Buckets table r fv) fv with
      | some m => setField r fv m
      | none => r)

/-- The source's single global-mean fallback,
`Log_Orig['DTI'] = Log_Orig['DTI'].fillna(Log_Orig['DTI'].mean())`:
it touches only the DTI column. -/
def globalFillDTI (table : List Record) : List Record :=
  let m := optMean (table.map (fun r => r.dti))
  table.map (fun r => { r with dti := r.dti.orElse (fun _ => m) })

/-- The source's imputation sequence: bucketed pass for `CSCORE_B`, then
`DTI`, then `OCLTV` (each over the table left by the previous pass),
followed by the global-mean fallback on DTI alone. -/
def imputeAll (table : List Record) : List Record :=
  globalFillDTI (fillPass (fillPass (fillPass table .CSCORE) .DTI) .OCLTV)

/-- Modelled from the claim's wording, not from the source: a variant of
`Buckets` in which EITHER missing bucketing field — the rate included — is
replaced by the overall table mean of that field, rounded at the same
granularity, before the key is formed.  Used only for comparison with the
source-derived `Buckets`. -/
def BucketsClaim (table : List Record) (r : Record) (fillVar : FillVar) : BKey :=
  match fillVar with
  | .CSCORE =>
    let Rate :=
      match r.origRt with
      | some v => some (roundTo 1 v)
      | none => (optMean (table.map (fun t => t.origRt))).map (fun m => roundTo 1 m)
    let OCLTV :=
      match r.ocltv with
      | some v => some (roundTo 20 v)
      | none => (optMean (table.map (fun t => t.ocltv))).map (fun m => roundTo 20 m)
    .ocltvRate OCLTV Rate
  | _ =>
    let Rate :=
      match r.origRt with
      | some v => some (roundTo 1 v)
      | none => (optMean (table.map (fun t => t.origRt))).map (fun m => roundTo 1 m)
    let FICO :=
      match r.cscore with
      | some v => some (roundTo 50 v)
      | none => (optMean (table.map (fun t => t.cscore))).map (fun m => roundTo 50 m)
    .ficoRate FICO Rate

/-- A date-keyed reference series (the benchmark-rate table). -/
abbrev RefSeries := List (Date × ℚ)

/-- Exact point lookup (`Rates.ix[date, 'Rate']` when the date is present;
`none` models the absent-key case). -/
def lookup : RefSeries → Date → Option ℚ
  | [], _ => none
  | (d, v) :: rest, key => if d = key then some v else lookup rest key

/-- Inclusive label-range slice `Rates.ix[a:b, 'Rate']`. -/
def rangeVals : RefSeries → Date → Date → List ℚ
  | [], _, _ => []
  | (d, v) :: rest, a, b =>
    if Date.le a d ∧ Date.le d b then v :: rangeVals rest a b else rangeVals rest a b

/-- The regional HPI table: one value per (date, region) pair. -/
abbrev HPITable := List (Date × String × ℚ)

/-- Exact point lookup `HPI.ix[date, state]`. -/
def lookupHPI : HPITable → Date → String → Option ℚ
  | [], _, _ => none
  | (d, st, v) :: rest, key, s =>
    if d = key ∧ st = s then some v else lookupHPI rest key s

/-- Inclusive label-range slice `HPI.ix[a:b, state]`. -/
def rangeHPI : HPITable → Date → Date → String → List ℚ
  | [], _, _, _ => []
  | (d, st, v) :: rest, a, b, s =>
    if (Date.le a d ∧ Date.le d b) ∧ st = s then v :: rangeHPI rest a b s
    else rangeHPI rest a b s

/-- Python's `min` over a sequence of values; `none` for the empty
sequence, whose `min` raises `ValueError`. -/
def listMin : List ℚ → Option ℚ
  | [] => none
  | x :: rest =>
    match listMin rest with
    | none => some x
    | some m => some (min x m)

/-- Which reference series `minVal` reads. -/
inductive SeriesKind
  | HPI
  | Rate
deriving DecidableEq

/-- The source's `minVal(series, origdate, offset, duration, state)` with
the global tables passed explicitly.  For HPI the Python expression
`min(HPI.ix[start:end, state]) / HPI.ix[start, state]` evaluates the
slice-min first, so an empty slice surfaces as `ValueError` before a
missing start key surfaces as `KeyError`; for Rate the point lookup
`Rates.ix[start, 'Rate']` is evaluated first. -/
def minVal (hpi : HPITable) (rates : RefSeries) (series : SeriesKind)
    (origdate : Date) (offset duration : ℕ) (state : String) : Except String ℚ :=
  let startdate := addYears offset origdate
  let enddate := addYears (offset + duration) origdate
  match series with
  | .HPI =>
    match listMin (rangeHPI hpi startdate enddate state) with
    | none => .error "ValueError: min() arg is an empty sequence"
    | some m =>
      match lookupHPI hpi startdate state with
      | none => .error "KeyError"
      | some v => .ok (m / v)
  | .Rate =>
    match lookup rates startdate with
    | none => .error "KeyError"
    | some v =>
      match listMin (rangeVals rates startdate enddate) with
      | none => .error "ValueError: min() arg is an empty sequence"
      | some m => .ok (v - m)

/-- One window-population sweep of cell 18:
`map(lambda x, y: minVal(series, x, offset, duration, y), ORIG_DTE, STATE)`.
Python-2 `map` is eager and an uncaught exception aborts the whole sweep,
so the first per-loan error aborts the traversal. -/
def populateWindow (hpi : HPITable) (rates : RefSeries) (series : SeriesKind)
    (offset duration : ℕ) (loans : List (Date × String)) : Except String (List ℚ) :=
  match loans with
  | [] => .ok []
  | l :: rest =>
    match minVal hpi rates series l.1 offset duration l.2 with
    | .error e => .error e
    | .ok v =>
      match populateWindow hpi rates series offset duration rest with
      | .error e => .error e
      | .ok vs => .ok (v :: vs)

/-- The state remap of cell 15: PR and VI become HI, all else unchanged. -/
def remapState (s : String) : String :=
  if s = "PR" then "HI" else if s = "VI" then "HI" else s

/-- NaN-propagating subtraction of two nullable columns. -/
def optSub (a b : Option ℚ) : Option ℚ :=
  match a, b with
  | some x, some y => some (x - y)
  | _, _ => none

/-- The SATO column: after the left merge of `Rates` onto `ORIG_DTE`
(missing month gives NaN benchmark), `SATO = ORIG_RT - ORIG_BENCHMK`. -/
def SATO (r : Record) (rates : RefSeries) : Option ℚ :=
  optSub r.origRt (lookup rates r.origDte)

/-- A row of the performance table `Perf`. -/
structure EventRecord where
  loanId : ℕ
  zbCode : Option ℤ
  zbDte : Option Date
deriving DecidableEq

/-- The source's `extractDefault(ID)`: filter `Perf` to the rows of this
loan with a non-null `ZB_DTE`; return `(NaN, NaN)` when none remain, else
the first row's `(Zero.Bal.Code, ZB_DTE)`. -/
def extractDefault (perf : List EventRecord) (lid : ℕ) : Option ℤ × Option Date :=
  match perf.filter (fun e => decide (e.loanId = lid) && e.zbDte.isSome) with
  | [] => (none, none)
  | a :: _ => (a.zbCode, a.zbDte)

/-- Membership in the qualifying exit-code list `[3, 6, 9]`. -/
def qualifying (c : ℤ) : Bool := c == 3 || c == 6 || c == 9

/-- The source's `ResponseValue(Code, OrigDate, DefDate)`.  A NaN code is
not `in [3,6,9]`, so it returns 0; inside the qualifying branch the code
decomposes `DefDate` into year, month and day, which fails on a null date
(modelled as `none`). -/
def ResponseValue (Code : Option ℤ) (OrigDate : Date) (DefDate : Option Date) :
    Option ℕ :=
  match Code with
  | some c =>
    if qualifying c then
      match DefDate with
      | none => none
      | some d =>
        if Date.le d (addYears 2 OrigDate) then some 1
        else if Date.le d (addYears 4 OrigDate) then some 2
        else if Date.le d (addYears 6 OrigDate) then some 3
        else some 0
    else some 0
  | none => some 0

/-! Example data used by concrete witnesses and counterexamples. -/

/-- Example loan: FL origination at 2005-01, rate 6.25, no missing fields. -/
def exRec : Record :=
  { loanId := 1, origAmt := 100000, origRt := some (625/100), origDte := ⟨2005, 1, 1⟩,
    ocltv := some 80, dti := some 30, cscore := some 700, state := "FL" }

/-- Example benchmark series containing the origination month of `exRec`. -/
def exRates : RefSeries := [(⟨2005, 1, 1⟩, 587/100)]

/-- Example performance table: loan 7 has only a null-dated event record,
loan 8 a dated one. -/
def exPerf : List EventRecord :=
  [⟨7, some 1, none⟩, ⟨8, some 3, some ⟨2006, 5, 1⟩⟩]

/-- Example origination date and benchmark series for the window claims. -/
def exD : Date := ⟨2005, 1, 1⟩

/-- Benchmark series covering 2005 and 2006 but not 1998. -/
def exRates2 : RefSeries := [(⟨2005, 1, 1⟩, 5), (⟨2006, 1, 1⟩, 3)]

/-- An origination date whose window start is absent from `exRates2`. -/
def d98 : Date := ⟨1998, 1, 1⟩

/-- A two-loan table: the first loan's window start is present in the
series, the second loan's is absent. -/
def exLoans : List (Date × String) := [(exD, "CA"), (d98, "CA")]

/-- Regional HPI table covering CA for 2005 and 2006 but not 1998. -/
def exHPI : HPITable := [(⟨2005, 1, 1⟩, "CA", 100), (⟨2006, 1, 1⟩, "CA", 90)]

/-- Rate component of a bucket key. -/
def BKey.rateOf : BKey → Option ℚ
  | .ocltvRate _ rt => rt
  | .ficoRate _ rt => rt

/-- Loan with a missing credit score whose bucket has no other member. -/
def rA : Record :=
  { loanId := 1, origAmt := 100, origRt := some 6, origDte := ⟨2005, 1, 1⟩,
    ocltv := some 40, dti := some 30, cscore := none, state := "CA" }

/-- Loan with a present credit score, in a different bucket than `rA`. -/
def rB : Record :=
  { loanId := 2, origAmt := 100, origRt := some 6, origDte := ⟨2005, 1, 1⟩,
    ocltv := some 80, dti := some 35, cscore := some 700, state := "CA" }

/-- Two-loan table for the fallback claim. -/
def exTable : List Record := [rA, rB]

/-- Loan with a missing origination rate (and missing credit score). -/
def rC : Record :=
  { loanId := 3, origAmt := 100, origRt := none, origDte := ⟨2005, 1, 1⟩,
    ocltv := some 40, dti := some 30, cscore := none, state := "CA" }

/-- Loan with all bucket fields present. -/
def rD : Record :=
  { loanId := 4, origAmt := 100, origRt := some 6, origDte := ⟨2005, 1, 1⟩,
    ocltv := some 80, dti := some 30, cscore := some 700, state := "CA" }

/-- Two-loan table for the bucket-key claim. -/
def exTable3 : List Record := [rC, rD]

/-- Loan with every bucketing field missing. -/
def rE : Record :=
  { loanId := 5, origAmt := 100, origRt := none, origDte := ⟨2005, 1, 1⟩,
    ocltv := none, dti := some 30, cscore := none, state := "CA" }

/-- Loan with a missing credit score sharing its bucket with `rB4`. -/
def rA4 : Record :=
  { loanId := 6, origAmt := 100, origRt := some 6, origDte := ⟨2005, 1, 1⟩,
    ocltv := some 40, dti := some 30, cscore := none, state := "CA" }

/-- Loan with a present credit score in the same bucket as `rA4`. -/
def rB4 : Record :=
  { loanId := 7, origAmt := 100, origRt := some 6, origDte := ⟨2005, 1, 1⟩,
    ocltv := some 40, dti := some 30, cscore := some 700, state := "CA" }

/-- Two-loan table for the bucketed-mean claim. -/
def exTable4 : List Record := [rA4, rB4]

/-! Helper lemmas about dates. -/

theorem Date.le_refl (d : Date) : Date.le d d :=
  Or.inr ⟨rfl, Or.inr ⟨rfl, le_rfl⟩⟩

theorem Date.le_addYears (o : Date) (off dur : ℕ) :
    Date.le (addYears off o) (addYears (off + dur) o) := by
  rcases Nat.eq_zero_or_pos dur with h | h
  · subst h
    exact Date.le_refl _
  · exact Or.inl (by simp only [addYears]; omega)

theorem nextDay_not_le (d : Date) : ¬ Date.le (nextDay d) d := by
  obtain ⟨y, m, dd⟩ := d
  simp only [nextDay]
  split
  · simp only [Date.le]
    omega
  · split
    · simp only [Date.le]
      omega
    · simp only [Date.le]
      omega

theorem nextDay_addYears_le (o : Date) (j k : ℕ) (h : j < k) :
    Date.le (nextDay (addYears j o)) (addYears k o) := by
  obtain ⟨y, m, d⟩ := o
  simp only [addYears, nextDay]
  split
  · simp only [Date.le]
    omega
  · split
    · simp only [Date.le]
      omega
    · simp only [Date.le]
      omega

/-- Reduction of `ResponseValue` at a qualifying code and a present date. -/
theorem ResponseValue_qual (c : ℤ) (hc : qualifying c = true) (o d : Date) :
    ResponseValue (some c) o (some d) =
      (if Date.le d (addYears 2 o) then some 1
       else if Date.le d (addYears 4 o) then some 2
       else if Date.le d (addYears 6 o) then some 3
       else some 0) := by
  simp [ResponseValue, hc]

/-- C5: for a loan with qualifying exit code 3, an exit date exactly equal to
the origination-plus-2-years cutoff yields label 1 (the boundary is
inclusive), and an exit date one calendar day later, all other inputs
unchanged, yields label 2. -/
theorem ResponseValue_cutoff_boundary (o : Date) :
    ResponseValue (some 3) o (some (addYears 2 o)) = some 1 ∧
    ResponseValue (some 3) o (some (nextDay (addYears 2 o))) = some 2 := by
  constructor
  · rw [ResponseValue_qual 3 rfl, if_pos (Date.le_refl _)]
  · rw [ResponseValue_qual 3 rfl, if_neg (nextDay_not_le _),
      if_pos (nextDay_addYears_le o 2 4 (by omega))]

/-- C6: the SATO column equals the origination rate minus the benchmark
value at the origination month, and (for a loan whose origination rate is
present) it is missing exactly when the benchmark series has no entry for
that month; a missing month degrades to a missing value, never to an
error. -/
theorem SATO_spec (r : Record) (rates : RefSeries) (rt : ℚ)
    (h : r.origRt = some rt) :
    (SATO r rates = none ↔ lookup rates r.origDte = none) ∧
    ∀ b, lookup rates r.origDte = some b → SATO r rates = some (rt - b) := by
  cases hl : lookup rates r.origDte with
  | none => simp [SATO, optSub, h, hl]
  | some b => simp [SATO, optSub, h, hl]

/-- Witness for C6 at a concrete loan and series. -/
theorem SATO_spec_witness :
    SATO exRec exRates = some (625/100 - 587/100) :=
  (SATO_spec exRec exRates (625/100) rfl).2 (587/100) rfl

/-- C8: after the remap step, a loan whose state is PR or VI gets exactly
the window-feature lookups of an otherwise identical loan with state HI,
for both series kinds and every window offset and duration. -/
theorem remap_window_equiv (hpi : HPITable) (rates : RefSeries) (o : Date)
    (st : String) (h : st = "PR" ∨ st = "VI") (k : SeriesKind) (off dur : ℕ) :
    minVal hpi rates k o off dur (remapState st) =
      minVal hpi rates k o off dur "HI" := by
  rcases h with h | h <;> subst h <;> rfl

/-- Witness for C8 at a concrete loan and concrete (empty) series. -/
theorem remap_window_equiv_witness :
    minVal [] [] .HPI ⟨2005, 1, 1⟩ 0 2 (remapState "PR") =
      minVal [] [] .HPI ⟨2005, 1, 1⟩ 0 2 "HI" :=
  remap_window_equiv [] [] ⟨2005, 1, 1⟩ "PR" (Or.inl rfl) .HPI 0 2

/-- C9: the label is 0 for any non-qualifying exit code (for instance 99)
regardless of the exit date, the label is 0 for a missing exit code, and a
loan with no event record carrying a non-null exit date gets
`(none, none)` back from `extractDefault`. -/
theorem ResponseValue_label_zero :
    (∀ (c : ℤ) (o : Date) (d : Option Date), qualifying c = false →
      ResponseValue (some c) o d = some 0) ∧
    (∀ (o : Date) (d : Option Date), ResponseValue none o d = some 0) ∧
    (∀ (perf : List EventRecord) (lid : ℕ),
      (∀ e ∈ perf, e.loanId = lid → e.zbDte = none) →
      extractDefault perf lid = (none, none)) := by
  refine ⟨fun c o d hc => by simp [ResponseValue, hc], fun o d => rfl, ?_⟩
  intro perf lid h
  have hf : perf.filter (fun e => decide (e.loanId = lid) && e.zbDte.isSome) = [] := by
    rw [List.filter_eq_nil_iff]
    intro e he
    by_cases hid : e.loanId = lid
    · simp [hid, h e he hid]
    · simp [hid]
  unfold extractDefault
  rw [hf]

/-- Witness for C9 at concrete inputs. -/
theorem ResponseValue_label_zero_witness :
    ResponseValue (some 99) ⟨2005, 1, 1⟩ (some ⟨2010, 1, 1⟩) = some 0 ∧
    ResponseValue none ⟨2005, 1, 1⟩ none = some 0 ∧
    extractDefault exPerf 7 = (none, none) :=
  ⟨ResponseValue_label_zero.1 99 ⟨2005, 1, 1⟩ (some ⟨2010, 1, 1⟩) (by decide),
   ResponseValue_label_zero.2.1 ⟨2005, 1, 1⟩ none,
   ResponseValue_label_zero.2.2 exPerf 7 (by decide)⟩

/-- C10: `extractDefault` yields a non-null exit code only together with a
non-null exit date, and consequently `ResponseValue` applied to its output
always produces a label — the date-decomposition branch never sees a null
date. -/
theorem extractDefault_safety (perf : List EventRecord) (lid : ℕ) (o : Date) :
    ((extractDefault perf lid).1.isSome → (extractDefault perf lid).2.isSome) ∧
    ∃ n, ResponseValue (extractDefault perf lid).1 o (extractDefault perf lid).2 =
      some n := by
  rcases hf : perf.filter (fun e => decide (e.loanId = lid) && e.zbDte.isSome) with
    _ | ⟨a, rest⟩
  · constructor
    · intro hs
      simp [extractDefault, hf] at hs
    · exact ⟨0, by simp [extractDefault, hf, ResponseValue]⟩
  · have ha : a ∈ perf.filter (fun e => decide (e.loanId = lid) && e.zbDte.isSome) := by
      rw [hf]
      exact List.mem_cons_self a rest
    have hpred := List.of_mem_filter ha
    have hdte : a.zbDte.isSome := by
      simp only [Bool.and_eq_true] at hpred
      exact hpred.2
    have hex : extractDefault perf lid = (a.zbCode, a.zbDte) := by
      unfold extractDefault
      rw [hf]
    constructor
    · intro _
      rw [hex]
      exact hdte
    · rw [hex]
      rcases Option.isSome_iff_exists.mp hdte with ⟨d, hd⟩
      rcases hc : a.zbCode with _ | c
      · exact ⟨0, by simp [ResponseValue]⟩
      · by_cases hq : qualifying c = true
        · rw [hd, ResponseValue_qual c hq]
          split_ifs <;> exact ⟨_, rfl⟩
        · exact ⟨0, by simp [ResponseValue, Bool.eq_false_iff.mpr hq]⟩

/-- Witness for C10 at a concrete performance table with a dated record. -/
theorem extractDefault_safety_witness :
    ((extractDefault exPerf 8).1.isSome → (extractDefault exPerf 8).2.isSome) ∧
    ∃ n, ResponseValue (extractDefault exPerf 8).1 ⟨2005, 1, 1⟩
      (extractDefault exPerf 8).2 = some n :=
  extractDefault_safety exPerf 8 ⟨2005, 1, 1⟩

/-! Helper lemmas about `listMin` and range lookups. -/

theorem listMin_eq_none {l : List ℚ} : listMin l = none ↔ l = [] := by
  cases l with
  | nil => simp [listMin]
  | cons x rest =>
    simp only [listMin]
    cases listMin rest <;> simp

theorem listMin_isSome {l : List ℚ} (h : l ≠ []) : ∃ m, listMin l = some m := by
  cases hm : listMin l with
  | none => exact absurd (listMin_eq_none.mp hm) h
  | some m => exact ⟨m, rfl⟩

theorem listMin_spec (l : List ℚ) : ∀ m, listMin l = some m →
    m ∈ l ∧ ∀ x ∈ l, m ≤ x := by
  induction l with
  | nil => intro m h; simp [listMin] at h
  | cons x rest ih =>
    intro m h
    rcases hr : listMin rest with _ | m'
    · have hrest : rest = [] := listMin_eq_none.mp hr
      subst hrest
      simp only [listMin] at h
      injection h with h
      subst h
      refine ⟨List.mem_cons_self _ _, ?_⟩
      intro y hy
      rcases List.mem_cons.mp hy with h1 | h1
      · exact le_of_eq h1.symm
      · simp at h1
    · simp only [listMin, hr] at h
      injection h with h
      subst h
      obtain ⟨hmem, hall⟩ := ih m' hr
      constructor
      · rcases le_total x m' with hx | hx
        · simp [min_eq_left hx]
        · rw [min_eq_right hx]
          exact List.mem_cons_of_mem _ hmem
      · intro y hy
        rcases List.mem_cons.mp hy with h1 | h1
        · subst h1
          exact min_le_left _ _
        · exact le_trans (min_le_right _ _) (hall y h1)

/-- A value found by point lookup at `a` belongs to the inclusive range
slice `[a, b]` whenever `a` does not exceed `b`. -/
theorem lookup_mem_range (s : RefSeries) (a b : Date) (v : ℚ)
    (h : lookup s a = some v) (hab : Date.le a b) : v ∈ rangeVals s a b := by
  induction s with
  | nil => simp [lookup] at h
  | cons p rest ih =>
    obtain ⟨d, w⟩ := p
    by_cases hd : d = a
    · subst hd
      simp only [lookup, if_pos rfl] at h
      injection h with h
      subst h
      simp only [rangeVals, if_pos (And.intro (Date.le_refl d) hab)]
      exact List.mem_cons_self _ _
    · simp only [lookup, if_neg hd] at h
      have hv := ih h
      simp only [rangeVals]
      split
      · exact List.mem_cons_of_mem _ hv
      · exact hv

/-- Reduction of `minVal` on the Rate series when both lookups succeed. -/
theorem minVal_rate_ok (hpi : HPITable) (rates : RefSeries) (o : Date)
    (off dur : ℕ) (st : String) (v m : ℚ)
    (hv : lookup rates (addYears off o) = some v)
    (hm : listMin (rangeVals rates (addYears off o) (addYears (off + dur) o)) = some m) :
    minVal hpi rates .Rate o off dur st = .ok (v - m) := by
  simp [minVal, hv, hm]

/-- Reduction of `minVal` on the Rate series when the start-date point
lookup fails: the pandas `.ix` lookup raises `KeyError`. -/
theorem minVal_rate_err (hpi : HPITable) (rates : RefSeries) (o : Date)
    (off dur : ℕ) (st : String)
    (hv : lookup rates (addYears off o) = none) :
    minVal hpi rates .Rate o off dur st = .error "KeyError" := by
  simp [minVal, hv]

/-- Reduction of `minVal` on the HPI series when both lookups succeed. -/
theorem minVal_hpi_ok (hpi : HPITable) (rates : RefSeries) (o : Date)
    (off dur : ℕ) (st : String) (m v : ℚ)
    (hm : listMin (rangeHPI hpi (addYears off o) (addYears (off + dur) o) st) = some m)
    (hv : lookupHPI hpi (addYears off o) st = some v) :
    minVal hpi rates .HPI o off dur st = .ok (m / v) := by
  simp [minVal, hm, hv]

/-- Reduction of `minVal` on the HPI series when the window slice is empty:
Python's `min` of the empty slice raises `ValueError` first. -/
theorem minVal_hpi_err_empty (hpi : HPITable) (rates : RefSeries) (o : Date)
    (off dur : ℕ) (st : String)
    (hm : listMin (rangeHPI hpi (addYears off o) (addYears (off + dur) o) st) = none) :
    minVal hpi rates .HPI o off dur st =
      .error "ValueError: min() arg is an empty sequence" := by
  simp [minVal, hm]

/-- Reduction of `minVal` on the HPI series when the slice is non-empty but
the start-date point lookup fails: the `.ix` lookup raises `KeyError`. -/
theorem minVal_hpi_err_key (hpi : HPITable) (rates : RefSeries) (o : Date)
    (off dur : ℕ) (st : String) (m : ℚ)
    (hm : listMin (rangeHPI hpi (addYears off o) (addYears (off + dur) o) st) = some m)
    (hv : lookupHPI hpi (addYears off o) st = none) :
    minVal hpi rates .HPI o off dur st = .error "KeyError" := by
  simp [minVal, hm, hv]

/-- C7: whenever the start date of a window is present in the benchmark
series, the rate window feature is defined and equals the start-date rate
minus the minimum rate over the inclusive window; it is nonnegative, and it
is zero exactly when the start-date rate is already minimal over the
window. -/
theorem minVal_rate_window_nonneg (hpi : HPITable) (rates : RefSeries)
    (o : Date) (off dur : ℕ) (st : String) (v : ℚ)
    (h : lookup rates (addYears off o) = some v) :
    ∃ m, listMin (rangeVals rates (addYears off o) (addYears (off + dur) o)) = some m ∧
      minVal hpi rates .Rate o off dur st = .ok (v - m) ∧
      0 ≤ v - m ∧
      (v - m = 0 ↔
        ∀ w ∈ rangeVals rates (addYears off o) (addYears (off + dur) o), v ≤ w) := by
  have hmem : v ∈ rangeVals rates (addYears off o) (addYears (off + dur) o) :=
    lookup_mem_range _ _ _ _ h (Date.le_addYears o off dur)
  obtain ⟨m, hm⟩ := listMin_isSome (List.ne_nil_of_mem hmem)
  obtain ⟨hmmem, hall⟩ := listMin_spec _ m hm
  refine ⟨m, hm, minVal_rate_ok hpi rates o off dur st v m h hm,
    sub_nonneg.mpr (hall v hmem), ?_, ?_⟩
  · intro h0 w hw
    have hvm : v = m := sub_eq_zero.mp h0
    rw [hvm]
    exact hall w hw
  · intro hws
    have h1 : v ≤ m := hws m hmmem
    have h2 : m ≤ v := hall v hmem
    rw [le_antisymm h1 h2, sub_self]

/-- Witness for C7 at a concrete series. -/
theorem minVal_rate_window_nonneg_witness :
    ∃ m, listMin (rangeVals exRates2 (addYears 0 exD) (addYears (0 + 2) exD)) = some m ∧
      minVal [] exRates2 .Rate exD 0 2 "CA" = .ok (5 - m) ∧
      0 ≤ (5 : ℚ) - m ∧
      ((5 : ℚ) - m = 0 ↔
        ∀ w ∈ rangeVals exRates2 (addYears 0 exD) (addYears (0 + 2) exD), 5 ≤ w) :=
  minVal_rate_window_nonneg [] exRates2 exD 0 2 "CA" 5 (by decide)

/-- C1 counterexample: a loan whose window start date is absent from the
reference series makes `minVal` raise — `KeyError` for the rate drop,
`ValueError` for the HPI ratio (its window slice is empty as well) — not
return a missing value, and both population sweeps over the loan table
abort with that error instead of continuing for the other loan (whose own
features are computable). -/
theorem minVal_missing_start_counterexample :
    minVal exHPI exRates2 .Rate d98 0 2 "CA" = .error "KeyError" ∧
    minVal exHPI exRates2 .HPI d98 0 2 "CA" =
      .error "ValueError: min() arg is an empty sequence" ∧
    (∃ q, minVal exHPI exRates2 .Rate exD 0 2 "CA" = .ok q) ∧
    (∃ q, minVal exHPI exRates2 .HPI exD 0 2 "CA" = .ok q) ∧
    populateWindow exHPI exRates2 .Rate 0 2 exLoans = .error "KeyError" ∧
    populateWindow exHPI exRates2 .HPI 0 2 exLoans =
      .error "ValueError: min() arg is an empty sequence" := by
  have h2r : minVal exHPI exRates2 .Rate d98 0 2 "CA" = .error "KeyError" :=
    minVal_rate_err _ _ _ _ _ _ (by decide)
  have h2h : minVal exHPI exRates2 .HPI d98 0 2 "CA" =
      .error "ValueError: min() arg is an empty sequence" :=
    minVal_hpi_err_empty _ _ _ _ _ _ (by decide)
  have hmr : listMin (rangeVals exRates2 (addYears 0 exD) (addYears (0 + 2) exD)) =
      some 3 := by decide
  have h1r : minVal exHPI exRates2 .Rate exD 0 2 "CA" = .ok (5 - 3) :=
    minVal_rate_ok _ _ _ _ _ _ 5 3 (by decide) hmr
  have hmh : listMin (rangeHPI exHPI (addYears 0 exD) (addYears (0 + 2) exD) "CA") =
      some 90 := by decide
  have h1h : minVal exHPI exRates2 .HPI exD 0 2 "CA" = .ok (90 / 100) :=
    minVal_hpi_ok _ _ _ _ _ _ 90 100 hmh (by decide)
  refine ⟨h2r, h2h, ⟨5 - 3, h1r⟩, ⟨90 / 100, h1h⟩, ?_, ?_⟩
  · simp only [exLoans, populateWindow, h1r, h2r]
  · simp only [exLoans, populateWindow, h1h, h2h]

/-- An `.ok` sweep result means every loan's `minVal` succeeded. -/
theorem populateWindow_ok_mem (hpi : HPITable) (rates : RefSeries)
    (k : SeriesKind) (off dur : ℕ) :
    ∀ (loans : List (Date × String)) (vs : List ℚ),
      populateWindow hpi rates k off dur loans = .ok vs →
      ∀ l ∈ loans, ∃ q, minVal hpi rates k l.1 off dur l.2 = .ok q := by
  intro loans
  induction loans with
  | nil =>
    intro vs h l hl
    simp at hl
  | cons x rest ih =>
    intro vs h l hl
    rcases hx : minVal hpi rates k x.1 off dur x.2 with e | q
    · simp only [populateWindow, hx] at h
      exact Except.noConfusion h
    · rcases hrest : populateWindow hpi rates k off dur rest with e' | vs'
      · simp only [populateWindow, hx, hrest] at h
        exact Except.noConfusion h
      · rcases List.mem_cons.mp hl with h1 | h1
        · subst h1
          exact ⟨q, hx⟩
        · exact ih vs' hrest l h1

/-- C1 amended: when a loan's window start date is absent from the
reference series backing a window feature, `minVal` fails — with
`KeyError` for the rate drop, and with `KeyError` or `ValueError` (empty
slice) for the HPI ratio — so the feature is an error, not a missing
value, and the eager population sweep of that feature over any loan table
containing the loan cannot return a result list at all. -/
theorem minVal_missing_start_fatal (hpi : HPITable) (rates : RefSeries)
    (off dur : ℕ) (loans : List (Date × String)) (d : Date) (s : String)
    (hmem : (d, s) ∈ loans) :
    (lookup rates (addYears off d) = none →
      minVal hpi rates .Rate d off dur s = .error "KeyError" ∧
      ∀ vs, populateWindow hpi rates .Rate off dur loans ≠ .ok vs) ∧
    (lookupHPI hpi (addYears off d) s = none →
      (∃ e, minVal hpi rates .HPI d off dur s = .error e) ∧
      ∀ vs, populateWindow hpi rates .HPI off dur loans ≠ .ok vs) := by
  constructor
  · intro hmiss
    have herr := minVal_rate_err hpi rates d off dur s hmiss
    refine ⟨herr, fun vs hok => ?_⟩
    obtain ⟨q, hq⟩ := populateWindow_ok_mem hpi rates .Rate off dur loans vs hok (d, s) hmem
    have hq' : minVal hpi rates .Rate d off dur s = .ok q := hq
    rw [herr] at hq'
    exact Except.noConfusion hq'
  · intro hmiss
    have herr : ∃ e, minVal hpi rates .HPI d off dur s = .error e := by
      rcases hm : listMin (rangeHPI hpi (addYears off d) (addYears (off + dur) d) s) with
        _ | m
      · exact ⟨_, minVal_hpi_err_empty hpi rates d off dur s hm⟩
      · exact ⟨_, minVal_hpi_err_key hpi rates d off dur s m hm hmiss⟩
    obtain ⟨e, herr⟩ := herr
    refine ⟨⟨e, herr⟩, fun vs hok => ?_⟩
    obtain ⟨q, hq⟩ := populateWindow_ok_mem hpi rates .HPI off dur loans vs hok (d, s) hmem
    have hq' : minVal hpi rates .HPI d off dur s = .ok q := hq
    rw [herr] at hq'
    exact Except.noConfusion hq'

/-- Witness for the amended C1 at a concrete HPI table, benchmark series
and loan table, covering both window-feature kinds. -/
theorem minVal_missing_start_fatal_witness :
    minVal exHPI exRates2 .Rate d98 0 2 "CA" = .error "KeyError" ∧
    (∃ e, minVal exHPI exRates2 .HPI d98 0 2 "CA" = .error e) ∧
    (∀ vs, populateWindow exHPI exRates2 .Rate 0 2 exLoans ≠ .ok vs) ∧
    (∀ vs, populateWindow exHPI exRates2 .HPI 0 2 exLoans ≠ .ok vs) := by
  have h := minVal_missing_start_fatal exHPI exRates2 0 2 exLoans d98 "CA" (by decide)
  have hr := h.1 (by decide)
  have hh := h.2 (by decide)
  exact ⟨hr.1, hh.1, hr.2, hh.2⟩

/-! The imputation claims. -/

/-! Concrete rounding evaluations. -/

theorem roundTo20_40 : roundTo 20 (40 : ℚ) = 40 := by
  norm_num [roundTo, roundHalfAway]

theorem roundTo20_80 : roundTo 20 (80 : ℚ) = 80 := by
  norm_num [roundTo, roundHalfAway]

theorem roundTo1_6 : roundTo 1 (6 : ℚ) = 6 := by
  norm_num [roundTo, roundHalfAway]

/-- The two records of `exTable` land in different buckets, whatever table
the means are taken over. -/
theorem keyA (t : List Record) : Buckets t rA .CSCORE = .ocltvRate (some 40) (some 6) := by
  simp [Buckets, rA, roundTo20_40, roundTo1_6]

theorem keyB (t : List Record) : Buckets t rB .CSCORE = .ocltvRate (some 80) (some 6) := by
  simp [Buckets, rB, roundTo20_80, roundTo1_6]

/-- C2 counterexample: on `exTable` the full imputation sequence, global
fallback included, leaves the first record's credit score missing even
though the credit-score column is not empty — the fallback pass only
covers DTI. -/
theorem global_fallback_counterexample :
    (imputeAll exTable).map (fun r => r.cscore) = [none, some 700] ∧
    some 700 ∈ exTable.map (fun r => r.cscore) := by
  constructor
  · simp [imputeAll, fillPass, globalFillDTI, bucketMean, optMean, getField, setField,
      exTable, rA, rB, Buckets, roundTo20_40, roundTo20_80, roundTo1_6, Option.orElse]
  · simp [exTable, rB]

/-- A record of the fill-pass output whose source record had a present DTI
still has a present DTI, for every pass. -/
theorem fillPass_exists_dti (t : List Record) (fv : FillVar)
    (h : ∃ r ∈ t, r.dti.isSome) : ∃ x ∈ fillPass t fv, x.dti.isSome := by
  obtain ⟨r, hr, hd⟩ := h
  unfold fillPass
  refine ⟨_, List.mem_map_of_mem _ hr, ?_⟩
  split
  · exact hd
  · split
    · cases fv
      · exact hd
      · rfl
      · exact hd
    · exact hd

/-- A list with a present entry has a defined mean. -/
theorem optMean_isSome (l : List (Option ℚ)) (h : ∃ x ∈ l, x.isSome) :
    (optMean l).isSome := by
  obtain ⟨x, hx, hs⟩ := h
  obtain ⟨v, hv⟩ := Option.isSome_iff_exists.mp hs
  have hmem : v ∈ l.filterMap id := List.mem_filterMap.mpr ⟨x, hx, by simp [hv]⟩
  simp only [optMean]
  rw [if_neg (List.ne_nil_of_mem hmem)]
  rfl

/-- C2 amended: the post-bucketing global-mean fallback runs once and covers
only the DTI column: after the full imputation sequence no record's DTI is
missing unless the whole DTI column was empty; the other imputed fields
receive no fallback. -/
theorem global_fallback_dti_only (t : List Record)
    (h : ∃ r ∈ t, r.dti.isSome) :
    ∀ x ∈ imputeAll t, x.dti.isSome := by
  have h3 := fillPass_exists_dti _ .OCLTV
    (fillPass_exists_dti _ .DTI (fillPass_exists_dti t .CSCORE h))
  intro x hx
  unfold imputeAll globalFillDTI at hx
  simp only [List.mem_map] at hx
  obtain ⟨r, hr, hrx⟩ := hx
  subst hrx
  cases hd : r.dti with
  | some v => simp [Option.orElse, hd]
  | none =>
    simp only [hd, Option.orElse]
    apply optMean_isSome
    obtain ⟨y, hy, hys⟩ := h3
    exact ⟨y.dti, List.mem_map_of_mem _ hy, hys⟩

/-- Witness for the amended C2 on the concrete table. -/
theorem global_fallback_dti_only_witness :
    (imputeAll exTable).all (fun r => r.dti.isSome) = true := by
  have h := global_fallback_dti_only exTable ⟨rA, List.mem_cons_self rA [rB], rfl⟩
  rw [List.all_eq_true]
  exact fun r hr => h r hr

/-- The source bucket key of `rC`: its missing rate flows into the key
unreplaced. -/
theorem keyC (t : List Record) : Buckets t rC .CSCORE = .ocltvRate (some 40) none := by
  simp [Buckets, rC, roundTo20_40]

/-- C3 counterexample: for a record whose `ORIG_RT` is missing, the source
key differs from the claim's key — the claim substitutes the table mean of
the rate, the source leaves the rate component missing. -/
theorem Buckets_rate_substitution_counterexample :
    Buckets exTable3 rC .CSCORE ≠ BucketsClaim exTable3 rC .CSCORE ∧
    Buckets exTable3 rC .CSCORE = .ocltvRate (some 40) none ∧
    BucketsClaim exTable3 rC .CSCORE = .ocltvRate (some 40) (some 6) := by
  have h1 : Buckets exTable3 rC .CSCORE = .ocltvRate (some 40) none := keyC exTable3
  have h2 : BucketsClaim exTable3 rC .CSCORE = .ocltvRate (some 40) (some 6) := by
    simp [BucketsClaim, rC, exTable3, rD, optMean, roundTo20_40, roundTo1_6]
  refine ⟨?_, h1, h2⟩
  rw [h1, h2]
  simp

/-- C3 amended: every record resolves to a bucket key; a missing first
bucketing field (OCLTV for the credit-score pass, credit score for the DTI
and OCLTV passes) is replaced by the rounded overall table mean, while the
rate component of the key is always the record's own rounded rate and is
missing exactly when `ORIG_RT` is missing — never mean-substituted. -/
theorem Buckets_key_substitution (t : List Record) (r : Record) :
    (r.ocltv = none →
      Buckets t r .CSCORE =
        .ocltvRate ((optMean (t.map (fun x => x.ocltv))).map (fun m => roundTo 20 m))
          (r.origRt.map (fun v => roundTo 1 v))) ∧
    (r.cscore = none →
      Buckets t r .DTI =
        .ficoRate ((optMean (t.map (fun x => x.cscore))).map (fun m => roundTo 50 m))
          (r.origRt.map (fun v => roundTo 1 v)) ∧
      Buckets t r .OCLTV =
        .ficoRate ((optMean (t.map (fun x => x.cscore))).map (fun m => roundTo 50 m))
          (r.origRt.map (fun v => roundTo 1 v))) ∧
    BKey.rateOf (Buckets t r .CSCORE) = r.origRt.map (fun v => roundTo 1 v) ∧
    BKey.rateOf (Buckets t r .DTI) = r.origRt.map (fun v => roundTo 1 v) ∧
    BKey.rateOf (Buckets t r .OCLTV) = r.origRt.map (fun v => roundTo 1 v) := by
  refine ⟨fun h => by simp [Buckets, h], fun h => ⟨by simp [Buckets, h], by simp [Buckets, h]⟩,
    ?_, ?_, ?_⟩
  · cases hoc : r.ocltv <;> simp [Buckets, hoc, BKey.rateOf]
  · cases hcs : r.cscore <;> simp [Buckets, hcs, BKey.rateOf]
  · cases hcs : r.cscore <;> simp [Buckets, hcs, BKey.rateOf]

/-- Witness for the amended C3 on a record with all bucketing fields
missing. -/
theorem Buckets_key_substitution_witness :
    Buckets exTable3 rE .CSCORE =
      .ocltvRate ((optMean (exTable3.map (fun x => x.ocltv))).map (fun m => roundTo 20 m))
        none ∧
    BKey.rateOf (Buckets exTable3 rE .CSCORE) = none :=
  ⟨(Buckets_key_substitution exTable3 rE).1 rfl,
   (Buckets_key_substitution exTable3 rE).2.2.1⟩

/-- Reading back the field just written by `setField`. -/
theorem getField_setField (r : Record) (fv : FillVar) (v : ℚ) :
    getField (setField r fv v) fv = some v := by
  cases fv <;> rfl

/-- C4: a record with a missing target field whose bucket contains at least
one informative member gets, from the bucketed pass, exactly the arithmetic
mean (sum over count) of the non-missing target values of the records
sharing its bucket key. -/
theorem fillPass_bucket_mean (t : List Record) (fv : FillVar) (i : ℕ) (r : Record)
    (hr : t[i]? = some r)
    (hmiss : getField r fv = none)
    (hne : ((t.filter (fun x => decide (Buckets t x fv = Buckets t r fv))).map
        (fun x => getField x fv)).filterMap id ≠ []) :
    Option.bind (fillPass t fv)[i]? (fun x => getField x fv) =
      some ((((t.filter (fun x => decide (Buckets t x fv = Buckets t r fv))).map
          (fun x => getField x fv)).filterMap id).sum /
        (((t.filter (fun x => decide (Buckets t x fv = Buckets t r fv))).map
          (fun x => getField x fv)).filterMap id).length) := by
  have hbm : bucketMean t (Buckets t r fv) fv =
      some ((((t.filter (fun x => decide (Buckets t x fv = Buckets t r fv))).map
          (fun x => getField x fv)).filterMap id).sum /
        (((t.filter (fun x => decide (Buckets t x fv = Buckets t r fv))).map
          (fun x => getField x fv)).filterMap id).length) := by
    simp only [bucketMean, optMean]
    rw [if_neg hne]
  unfold fillPass
  rw [List.getElem?_map, hr]
  simp only [Option.map_some', Option.some_bind]
  rw [hmiss]
  simp only [Option.isSome_none, Bool.false_eq_true, if_false]
  rw [hbm]
  exact getField_setField r fv _

/-- On `exTable4` both records share one bucket, whose informative values
are exactly `[700]`. -/
theorem exTable4_vs :
    ((exTable4.filter (fun x =>
        decide (Buckets exTable4 x .CSCORE = Buckets exTable4 rA4 .CSCORE))).map
      (fun x => getField x .CSCORE)).filterMap id = [700] := by
  simp [exTable4, rA4, rB4, Buckets, getField, roundTo20_40, roundTo1_6]

/-- Witness for C4: the missing credit score of the first record of
`exTable4` is filled with the mean of its bucket's values, 700. -/
theorem fillPass_bucket_mean_witness :
    Option.bind (fillPass exTable4 .CSCORE)[0]? (fun x => getField x .CSCORE) =
      some 700 := by
  have h := fillPass_bucket_mean exTable4 .CSCORE 0 rA4 rfl rfl
    (by rw [exTable4_vs]; simp)
  rw [exTable4_vs] at h
  simpa using h

end Scrub
